import Mathlib

/-!
Shallow embedding of the nomacs batch-processing engine
(src/ImageLounge/src/DkLoader/DkProcess.cpp).

The file system is modelled as an association list from paths to abstract
file contents (a natural number stands for the bytes of a file / an image
payload).  Qt file primitives (QFile::rename, QFile::remove, QFile::copy,
QImage save/load) are modelled with their documented success conditions,
plus an environment flag per call site that lets the operation fail for
external reasons (permissions, disk, ...), matching the fact that the
C++ code checks every boolean result.
-/

/-- File-system paths (QString paths). -/
abbrev FPath := String

/-- The file system: an association list from paths to abstract contents. -/
abbrev FS := List (FPath × Nat)

/-- Lookup of a file content by path. -/
def fsLookup : FS → FPath → Option Nat
  | [], _ => none
  | (q, c) :: rest, p => if q = p then some c else fsLookup rest p

/-- QFileInfo::exists. -/
def fsExists (fs : FS) (p : FPath) : Bool :=
  (fsLookup fs p).isSome

/-- Remove every entry for a path. -/
def fsErase : FS → FPath → FS
  | [], _ => []
  | (q, c) :: rest, p => if q = p then fsErase rest p else (q, c) :: fsErase rest p

/-- Write (or overwrite) a file. -/
def fsInsert (fs : FS) (p : FPath) (c : Nat) : FS :=
  (p, c) :: fsErase fs p

/-- QFile::rename: fails when the source is missing, the destination already
exists, or the environment refuses the operation (`envOk = false`). -/
def fsRename (envOk : Bool) (fs : FS) (src dst : FPath) : Option FS :=
  match fsLookup fs src with
  | none => none
  | some c => if envOk && !(fsExists fs dst) then some (fsInsert (fsErase fs src) dst c) else none

/-- QFile::remove: fails when the file is missing or the environment refuses. -/
def fsRemove (envOk : Bool) (fs : FS) (p : FPath) : Option FS :=
  if envOk && fsExists fs p then some (fsErase fs p) else none

/-- QFile::copy: fails when the source is missing, the destination already
exists, or the environment refuses. -/
def fsCopy (envOk : Bool) (fs : FS) (src dst : FPath) : Option FS :=
  match fsLookup fs src with
  | none => none
  | some c => if envOk && !(fsExists fs dst) then some (fsInsert fs dst c) else none

/-- QFileInfo::suffix of a path: the part of the file name after the last
dot, empty when the file name contains no dot. -/
def pathSuffix (p : FPath) : String :=
  let fileName := (p.splitOn "/").getLastD ""
  let parts := fileName.splitOn "."
  if parts.length ≤ 1 then "" else parts.getLastD ""

/-- DkBatchConfig overwrite modes (mode_skip_existing / mode_overwrite). -/
inductive BatchMode
  | skipExisting
  | overwrite
deriving DecidableEq

/-- An abstract processing step of the chain (a DkAbstractBatch seen through
its virtual compute interface): it has a name and transforms the current
image, reporting success.  Steps are read-only during a run. -/
structure AbsStep where
  name : String
  run : Nat → Bool × Nat

/-- The per-file batch item state (class DkBatchProcess): input/output paths,
run configuration, and the mutable log / failure counter / processed flag /
backup path. -/
structure DkBatchProcess where
  filePathIn : FPath
  filePathOut : FPath
  mode : BatchMode := BatchMode.skipExisting
  deleteOriginal : Bool := false
  compression : Int := -1
  processChain : List (Option AbsStep) := []
  logStrings : List String := []
  failure : Nat := 0
  isProcessed : Bool := false
  backupFilePath : FPath := ""

/-- DkBatchProcess::hasFailed. -/
def DkBatchProcess.hasFailed (st : DkBatchProcess) : Bool :=
  st.failure != 0

/-- DkBatchProcess::wasProcessed. -/
def DkBatchProcess.wasProcessed (st : DkBatchProcess) : Bool :=
  st.isProcessed

/-- Append one line to the item log (mLogStrings.append). -/
def appendLog (st : DkBatchProcess) (s : String) : DkBatchProcess :=
  { st with logStrings := st.logStrings ++ [s] }

/-- Increment the failure counter (mFailure++). -/
def bumpFailure (st : DkBatchProcess) : DkBatchProcess :=
  { st with failure := st.failure + 1 }

/-- Environment of one compute() call: the generated unique backup name and
the external success/failure outcome of each file-system touch point. -/
structure Env where
  backupName : FPath := ""
  loadOk : Bool := true
  renameFileOk : Bool := true
  copyOk : Bool := true
  prepareRenameOk : Bool := true
  saveOk : Bool := true
  removeBackupOk : Bool := true
  restoreRenameOk : Bool := true
  deleteOriginalOk : Bool := true

/-- Log line of the skip-existing branch of DkBatchProcess::compute. -/
def skipExistsMsg (out : FPath) : String :=
  out ++ " already exists -> skipping (check overwrite if you want to overwrite the file)"

/-- DkBatchProcess::renameFile. -/
def DkBatchProcess.renameFile (env : Env) (st : DkBatchProcess) (fs : FS) :
    Bool × DkBatchProcess × FS :=
  if fsExists fs st.filePathOut then
    (false, appendLog st "Error: could not rename file, the target file exists already.", fs)
  else
    match fsRename env.renameFileOk fs st.filePathIn st.filePathOut with
    | none => (false, appendLog st "Error: could not rename file", fs)
    | some fs1 =>
      (true, appendLog st ("Renaming: " ++ st.filePathIn ++ " -> " ++ st.filePathOut), fs1)

/-- DkBatchProcess::deleteOrRestoreExisting: after the save attempt, delete
the backup when the output exists, otherwise rename the backup back to the
output path. -/
def DkBatchProcess.deleteOrRestoreExisting (env : Env) (st : DkBatchProcess) (fs : FS) :
    Bool × DkBatchProcess × FS :=
  if fsExists fs st.filePathOut ∧ st.backupFilePath ≠ "" ∧ fsExists fs st.backupFilePath then
    match fsRemove env.removeBackupOk fs st.backupFilePath with
    | none => (false, appendLog st "Error: could not delete existing file", fs)
    | some fs1 => (true, st, fs1)
  else if ¬ fsExists fs st.filePathOut then
    match fsRename env.restoreRenameOk fs st.backupFilePath st.filePathOut with
    | none =>
      (false,
       appendLog st
         ("Ui - a lot of things went wrong, your original file can be found here: "
          ++ st.backupFilePath),
       fs)
    | some fs1 =>
      (true,
       appendLog st
         ("I could not save to " ++ st.filePathOut ++ " so I restored the original file."),
       fs1)
  else
    (true, st, fs)

/-- DkBatchProcess::copyFile. -/
def DkBatchProcess.copyFile (env : Env) (st : DkBatchProcess) (fs : FS) :
    Bool × DkBatchProcess × FS :=
  let pre :=
    if fsExists fs st.filePathOut ∧ st.mode = BatchMode.overwrite then
      DkBatchProcess.deleteOrRestoreExisting env st fs
    else (true, st, fs)
  if !pre.1 then (false, pre.2.1, pre.2.2)
  else
    match fsCopy env.copyOk pre.2.2 pre.2.1.filePathIn pre.2.1.filePathOut with
    | none =>
      (false,
       appendLog
         (appendLog
           (appendLog pre.2.1 "Error: could not copy file")
           ("Input: " ++ pre.2.1.filePathIn))
         ("Output: " ++ pre.2.1.filePathOut),
       pre.2.2)
    | some fs1 =>
      (true,
       appendLog pre.2.1 ("Copying: " ++ pre.2.1.filePathIn ++ " -> " ++ pre.2.1.filePathOut),
       fs1)

/-- DkBatchProcess::prepareDeleteExisting: rename an existing output aside to
a unique backup name before saving over it (overwrite mode only). -/
def DkBatchProcess.prepareDeleteExisting (env : Env) (st : DkBatchProcess) (fs : FS) :
    Bool × DkBatchProcess × FS :=
  if fsExists fs st.filePathOut ∧ st.mode = BatchMode.overwrite then
    let buFile := env.backupName
    if fsExists fs buFile then
      (false, appendLog st ("Error: back-up (" ++ buFile ++ ") file already exists"), fs)
    else
      match fsRename env.prepareRenameOk fs st.filePathOut buFile with
      | none => (false, appendLog st ("Error: could not rename existing file to " ++ buFile), fs)
      | some fs1 => (true, { st with backupFilePath := buFile }, fs1)
  else (true, st, fs)

/-- DkBatchProcess::deleteOriginalFile. -/
def DkBatchProcess.deleteOriginalFile (env : Env) (st : DkBatchProcess) (fs : FS) :
    Bool × DkBatchProcess × FS :=
  if st.filePathIn = st.filePathOut then (true, st, fs)
  else if st.failure = 0 ∧ st.deleteOriginal then
    match fsRemove env.deleteOriginalOk fs st.filePathIn with
    | some fs1 => (true, appendLog st (st.filePathIn ++ " deleted."), fs1)
    | none => (false, appendLog (bumpFailure st) ("I could not delete " ++ st.filePathIn), fs)
  else if st.failure ≠ 0 then
    (true,
     appendLog st
       ("I did not delete the original because I detected " ++ toString st.failure
        ++ " failure(s)."),
     fs)
  else (true, st, fs)

/-- Log line used for a null entry of the process chain. -/
def nullStepMsg : String := "Error: cannot process a NULL function."

/-- The step loop of DkBatchProcess::process: run every chain entry in order
over the current image; a null entry is logged and skipped, a failing step
is logged and counted, and the loop never breaks early. -/
def runSteps : List (Option AbsStep) → Nat → DkBatchProcess → Nat × DkBatchProcess
  | [], img, st => (img, st)
  | none :: rest, img, st => runSteps rest img (appendLog st nullStepMsg)
  | some b :: rest, img, st =>
    let r := b.run img
    runSteps rest r.2 (if r.1 then st else bumpFailure (appendLog st (b.name ++ " failed")))

/-- Pure view of the step loop: the image after running the whole chain. -/
def foldSteps : List (Option AbsStep) → Nat → Nat
  | [], img => img
  | none :: rest, img => foldSteps rest img
  | some b :: rest, img => foldSteps rest (b.run img).2

/-- Pure view of the step loop: how many steps of the chain fail. -/
def countStepFailures : List (Option AbsStep) → Nat → Nat
  | [], _ => 0
  | none :: rest, img => countStepFailures rest img
  | some b :: rest, img =>
    (if (b.run img).1 then 0 else 1) + countStepFailures rest (b.run img).2

/-- Result of DkBatchProcess::process, with a ghost flag recording whether
saveImage was reached (the save call site was executed). -/
structure ProcessRes where
  ok : Bool
  st : DkBatchProcess
  fs : FS
  saveAttempted : Bool

/-- The tail of DkBatchProcess::process after a successful backup prepare:
the saveImage call on the chain result `img`, followed by
deleteOrRestoreExisting on its outcome. -/
def processSaveAndFinalize (env : Env) (img : Nat) (st : DkBatchProcess) (fs : FS) : ProcessRes :=
  let st1 :=
    if env.saveOk then appendLog st (st.filePathOut ++ " saved...")
    else bumpFailure (appendLog st ("Could not save: " ++ st.filePathOut))
  let fs1 := if env.saveOk then fsInsert fs st.filePathOut img else fs
  let d := DkBatchProcess.deleteOrRestoreExisting env st1 fs1
  if !d.1 then
    { ok := false, st := bumpFailure d.2.1, fs := d.2.2, saveAttempted := true }
  else
    { ok := true, st := d.2.1, fs := d.2.2, saveAttempted := true }

/-- DkBatchProcess::process: load the input image, run the whole step chain,
back up an existing output, save, and finalize the backup. -/
def DkBatchProcess.process (env : Env) (st0 : DkBatchProcess) (fs : FS) : ProcessRes :=
  let st := appendLog st0 ("processing " ++ st0.filePathIn)
  match (if env.loadOk then fsLookup fs st.filePathIn else none) with
  | none =>
    { ok := false, st := bumpFailure (appendLog st "Error while loading..."), fs := fs,
      saveAttempted := false }
  | some img0 =>
    let s := runSteps st.processChain img0 st
    let p := DkBatchProcess.prepareDeleteExisting env s.2 fs
    if !p.1 then
      { ok := false, st := bumpFailure p.2.1, fs := p.2.2, saveAttempted := false }
    else
      processSaveAndFinalize env s.1 p.2.1 p.2.2

/-- The branch of DkBatchProcess::compute that actually ran (ghost
observer of the control flow; one value per exit of the C++ function). -/
inductive BatchAction
  | skippedExists
  | inputMissing
  | noOp
  | renamed
  | copied
  | processed
deriving DecidableEq

/-- Result of DkBatchProcess::compute. -/
structure ComputeRes where
  ok : Bool
  st : DkBatchProcess
  fs : FS
  action : BatchAction

/-- DkBatchProcess::compute: the per-item state machine (skip existing /
missing input / no-op / rename / copy / full process). -/
def DkBatchProcess.compute (env : Env) (st0 : DkBatchProcess) (fs : FS) : ComputeRes :=
  let st : DkBatchProcess := { st0 with isProcessed := true }
  if fsExists fs st.filePathOut ∧ st.mode = BatchMode.skipExisting then
    let st := bumpFailure (appendLog st (skipExistsMsg st.filePathOut))
    { ok := st.failure == 0, st := st, fs := fs, action := BatchAction.skippedExists }
  else if ¬ fsExists fs st.filePathIn then
    let st :=
      bumpFailure
        (appendLog (appendLog st "Error: input file does not exist")
          ("Input: " ++ st.filePathIn))
    { ok := st.failure == 0, st := st, fs := fs, action := BatchAction.inputMissing }
  else if st.filePathIn = st.filePathOut ∧ st.processChain.isEmpty then
    let st := bumpFailure (appendLog st "Skipping: nothing to do here.")
    { ok := st.failure == 0, st := st, fs := fs, action := BatchAction.noOp }
  else if st.processChain.isEmpty ∧ st.filePathIn = st.filePathOut
      ∧ pathSuffix st.filePathIn = pathSuffix st.filePathOut then
    let r := DkBatchProcess.renameFile env st fs
    let st1 := if r.1 then r.2.1 else bumpFailure r.2.1
    { ok := st1.failure == 0, st := st1, fs := r.2.2, action := BatchAction.renamed }
  else if st.processChain.isEmpty ∧ pathSuffix st.filePathIn = pathSuffix st.filePathOut then
    let r := DkBatchProcess.copyFile env st fs
    if !r.1 then
      let st1 := bumpFailure r.2.1
      { ok := st1.failure == 0, st := st1, fs := r.2.2, action := BatchAction.copied }
    else
      let d := DkBatchProcess.deleteOriginalFile env r.2.1 r.2.2
      { ok := d.2.1.failure == 0, st := d.2.1, fs := d.2.2, action := BatchAction.copied }
  else
    let r := DkBatchProcess.process env st fs
    { ok := r.st.failure == 0, st := r.st, fs := r.fs, action := BatchAction.processed }

/-! Basic lemmas about the file-system model. -/

theorem fsLookup_erase (fs : FS) (p q : FPath) :
    fsLookup (fsErase fs p) q = if q = p then none else fsLookup fs q := by
  induction fs with
  | nil => simp [fsErase, fsLookup]
  | cons e rest ih =>
    obtain ⟨r, c⟩ := e
    by_cases hrp : r = p <;> by_cases hrq : r = q <;> by_cases hqp : q = p <;>
      simp_all [fsErase, fsLookup]

@[simp] theorem fsLookup_erase_self (fs : FS) (p : FPath) :
    fsLookup (fsErase fs p) p = none := by
  simp [fsLookup_erase]

theorem fsLookup_erase_ne (fs : FS) (p q : FPath) (h : q ≠ p) :
    fsLookup (fsErase fs p) q = fsLookup fs q := by
  simp [fsLookup_erase, h]

@[simp] theorem fsLookup_insert_self (fs : FS) (p : FPath) (c : Nat) :
    fsLookup (fsInsert fs p c) p = some c := by
  simp [fsInsert, fsLookup]

theorem fsLookup_insert_ne (fs : FS) (p q : FPath) (c : Nat) (h : q ≠ p) :
    fsLookup (fsInsert fs p c) q = fsLookup fs q := by
  simp [fsInsert, fsLookup, Ne.symm h, fsLookup_erase_ne fs p q h]

theorem fsExists_lookup (fs : FS) (p : FPath) :
    fsExists fs p = true ↔ ∃ c, fsLookup fs p = some c := by
  simp [fsExists, Option.isSome_iff_exists]

theorem fsRemove_eq_some {envOk : Bool} {fs fs1 : FS} {p : FPath}
    (h : fsRemove envOk fs p = some fs1) : fs1 = fsErase fs p := by
  unfold fsRemove at h
  split at h <;> simp_all

/-- C8: DkBatchProcess::compute returns true exactly when the failure counter
is zero on return, i.e. the boolean result of compute() equals the negation
of hasFailed() observed immediately afterwards. -/
theorem compute_ok_iff_not_failed (env : Env) (st : DkBatchProcess) (fs : FS) :
    (DkBatchProcess.compute env st fs).ok
      = !(DkBatchProcess.compute env st fs).st.hasFailed := by
  unfold DkBatchProcess.compute
  dsimp only
  repeat' split
  all_goals simp [DkBatchProcess.hasFailed, bne]

/-- C1: for an item whose output already exists under skip-existing mode,
compute() appends exactly one log line, increments the failure counter
exactly once, leaves the file system untouched, and afterwards
wasProcessed() and hasFailed() are both true. -/
theorem compute_skip_existing (env : Env) (st : DkBatchProcess) (fs : FS)
    (hout : fsExists fs st.filePathOut = true) (hmode : st.mode = BatchMode.skipExisting) :
    (DkBatchProcess.compute env st fs).st.logStrings
        = st.logStrings ++ [skipExistsMsg st.filePathOut]
    ∧ (DkBatchProcess.compute env st fs).st.failure = st.failure + 1
    ∧ (DkBatchProcess.compute env st fs).fs = fs
    ∧ (DkBatchProcess.compute env st fs).st.wasProcessed = true
    ∧ (DkBatchProcess.compute env st fs).st.hasFailed = true
    ∧ (DkBatchProcess.compute env st fs).action = BatchAction.skippedExists := by
  unfold DkBatchProcess.compute
  dsimp only
  simp [hout, hmode, appendLog, bumpFailure,
        DkBatchProcess.hasFailed, DkBatchProcess.wasProcessed, bne]

/-- Witness for C1 at a concrete item and file system. -/
theorem compute_skip_existing_witness :
    (DkBatchProcess.compute {} { filePathIn := "in.jpg", filePathOut := "out.jpg" }
        [("out.jpg", 5)]).st.failure = 0 + 1
    ∧ (DkBatchProcess.compute {} { filePathIn := "in.jpg", filePathOut := "out.jpg" }
        [("out.jpg", 5)]).st.hasFailed = true :=
  ⟨(compute_skip_existing {} { filePathIn := "in.jpg", filePathOut := "out.jpg" }
      [("out.jpg", 5)] (by decide) rfl).2.1,
   (compute_skip_existing {} { filePathIn := "in.jpg", filePathOut := "out.jpg" }
      [("out.jpg", 5)] (by decide) rfl).2.2.2.2.1⟩

/-- C9: deleteOriginalFile either leaves the file system unchanged, or it
removes exactly the input file, and the latter only when the delete-original
flag is set, the input and output paths differ, and no failure has been
recorded. -/
theorem deleteOriginalFile_frame (env : Env) (st : DkBatchProcess) (fs : FS) :
    (DkBatchProcess.deleteOriginalFile env st fs).2.2 = fs
    ∨ (st.deleteOriginal = true ∧ st.filePathIn ≠ st.filePathOut ∧ st.failure = 0
       ∧ (DkBatchProcess.deleteOriginalFile env st fs).2.2 = fsErase fs st.filePathIn) := by
  unfold DkBatchProcess.deleteOriginalFile
  split
  · left; rfl
  next hne =>
    split
    next hc =>
      rcases hfr : fsRemove env.deleteOriginalOk fs st.filePathIn with _ | fs1
      · exact Or.inl (by simp [hfr])
      · exact Or.inr ⟨hc.2, hne, hc.1, by simp [hfr, fsRemove_eq_some hfr]⟩
    · split
      · left; rfl
      · left; rfl

/-- C4 counterexample: an item with empty step chain, input path equal to the
output path (hence equal extensions), existing input and overwrite mode (so
the output is not skipped) does NOT reach the rename branch: compute() takes
the earlier no-op branch, increments the failure counter and leaves the file
system unchanged. -/
theorem compute_rename_branch_cex :
    (DkBatchProcess.compute {}
        { filePathIn := "a.jpg", filePathOut := "a.jpg", mode := BatchMode.overwrite }
        [("a.jpg", 7)]).action ≠ BatchAction.renamed
    ∧ (DkBatchProcess.compute {}
        { filePathIn := "a.jpg", filePathOut := "a.jpg", mode := BatchMode.overwrite }
        [("a.jpg", 7)]).action = BatchAction.noOp
    ∧ (DkBatchProcess.compute {}
        { filePathIn := "a.jpg", filePathOut := "a.jpg", mode := BatchMode.overwrite }
        [("a.jpg", 7)]).st.failure = 1
    ∧ (DkBatchProcess.compute {}
        { filePathIn := "a.jpg", filePathOut := "a.jpg", mode := BatchMode.overwrite }
        [("a.jpg", 7)]).fs = [("a.jpg", 7)] := by
  decide

/-- C4 (amended): for every item with input path equal to output path and no
configured steps, compute() is a no-op that increments the failure counter
and stops without touching the file system; moreover the rename branch of
compute() is unreachable for every input (its guard requires an empty chain
and input==output, which the preceding no-op check already intercepts), so
compute() never attempts a rename. -/
theorem compute_noop_and_rename_dead (env : Env) (st : DkBatchProcess) (fs : FS)
    (hio : st.filePathIn = st.filePathOut) (hchain : st.processChain = [])
    (hin : fsExists fs st.filePathIn = true) (hmode : st.mode = BatchMode.overwrite) :
    ((DkBatchProcess.compute env st fs).action = BatchAction.noOp
     ∧ (DkBatchProcess.compute env st fs).st.failure = st.failure + 1
     ∧ (DkBatchProcess.compute env st fs).fs = fs
     ∧ (DkBatchProcess.compute env st fs).st.logStrings
        = st.logStrings ++ ["Skipping: nothing to do here."])
    ∧ ∀ (env2 : Env) (st2 : DkBatchProcess) (fs2 : FS),
        (DkBatchProcess.compute env2 st2 fs2).action ≠ BatchAction.renamed := by
  constructor
  · have hout : fsExists fs st.filePathOut = true := by rw [← hio]; exact hin
    unfold DkBatchProcess.compute
    dsimp only
    simp [hio, hchain, hin, hout, hmode, appendLog, bumpFailure]
  · intro env2 st2 fs2
    unfold DkBatchProcess.compute
    dsimp only
    repeat' split
    all_goals simp_all

/-- Witness for C4 (amended) at a concrete item and file system. -/
theorem compute_noop_and_rename_dead_witness :
    (DkBatchProcess.compute {}
        { filePathIn := "b.png", filePathOut := "b.png", mode := BatchMode.overwrite }
        [("b.png", 3)]).action = BatchAction.noOp
    ∧ (DkBatchProcess.compute {}
        { filePathIn := "b.png", filePathOut := "b.png", mode := BatchMode.overwrite }
        [("b.png", 3)]).st.failure = 0 + 1 :=
  ⟨(compute_noop_and_rename_dead {}
      { filePathIn := "b.png", filePathOut := "b.png", mode := BatchMode.overwrite }
      [("b.png", 3)] rfl rfl (by decide) rfl).1.1,
   (compute_noop_and_rename_dead {}
      { filePathIn := "b.png", filePathOut := "b.png", mode := BatchMode.overwrite }
      [("b.png", 3)] rfl rfl (by decide) rfl).1.2.1⟩

theorem fsLookup_insert (fs : FS) (p q : FPath) (c : Nat) :
    fsLookup (fsInsert fs p c) q = if q = p then some c else fsLookup fs q := by
  by_cases h : q = p
  · subst h; simp
  · simp [h, fsLookup_insert_ne fs p q c h]

theorem fsExists_insert (fs : FS) (p q : FPath) (c : Nat) :
    fsExists (fsInsert fs p c) q = (if q = p then true else fsExists fs q) := by
  by_cases h : q = p <;> simp [fsExists, fsLookup_insert, h]

theorem fsExists_erase (fs : FS) (p q : FPath) :
    fsExists (fsErase fs p) q = (if q = p then false else fsExists fs q) := by
  by_cases h : q = p <;> simp [fsExists, fsLookup_erase, h]

/-- The step loop computes the fold of the chain over the initial image and
adds one failure per failing step; it never aborts early. -/
theorem runSteps_img_failure (c : List (Option AbsStep)) (img : Nat) (st : DkBatchProcess) :
    (runSteps c img st).1 = foldSteps c img
    ∧ (runSteps c img st).2.failure = st.failure + countStepFailures c img := by
  induction c generalizing img st with
  | nil => simp [runSteps, foldSteps, countStepFailures]
  | cons hd rest ih =>
    cases hd with
    | none =>
      simpa [runSteps, foldSteps, countStepFailures, appendLog] using ih img (appendLog st nullStepMsg)
    | some b =>
      by_cases hb : (b.run img).1 = true
      · simpa [runSteps, foldSteps, countStepFailures, hb] using ih (b.run img).2 st
      · constructor
        · simpa [runSteps, foldSteps, hb] using
            (ih (b.run img).2 (bumpFailure (appendLog st (b.name ++ " failed")))).1
        · have h2 := (ih (b.run img).2 (bumpFailure (appendLog st (b.name ++ " failed")))).2
          simp only [runSteps, hb, if_neg, Bool.false_eq_true, ite_false] at h2 ⊢
          rw [h2]
          simp [bumpFailure, appendLog, countStepFailures, hb]
          omega

/-- The step loop never changes the configuration fields of the item. -/
theorem runSteps_preserves (c : List (Option AbsStep)) (img : Nat) (st : DkBatchProcess) :
    (runSteps c img st).2.filePathIn = st.filePathIn
    ∧ (runSteps c img st).2.filePathOut = st.filePathOut
    ∧ (runSteps c img st).2.mode = st.mode
    ∧ (runSteps c img st).2.backupFilePath = st.backupFilePath
    ∧ (runSteps c img st).2.deleteOriginal = st.deleteOriginal
    ∧ (runSteps c img st).2.isProcessed = st.isProcessed := by
  induction c generalizing img st with
  | nil => simp [runSteps]
  | cons hd rest ih =>
    cases hd with
    | none =>
      simpa [runSteps, appendLog] using ih img (appendLog st nullStepMsg)
    | some b =>
      by_cases hb : (b.run img).1 = true
      · simpa [runSteps, hb] using ih (b.run img).2 st
      · simpa [runSteps, hb, appendLog, bumpFailure] using
          ih (b.run img).2 (bumpFailure (appendLog st (b.name ++ " failed")))

/-- prepareDeleteExisting does nothing when the output does not exist or the
mode is not overwrite. -/
theorem prepare_not_overwrite (env : Env) (s : DkBatchProcess) (fs : FS)
    (h : ¬(fsExists fs s.filePathOut = true ∧ s.mode = BatchMode.overwrite)) :
    DkBatchProcess.prepareDeleteExisting env s fs = (true, s, fs) := by
  unfold DkBatchProcess.prepareDeleteExisting
  rw [if_neg h]

/-- prepareDeleteExisting moves an existing output aside to the fresh backup
name in overwrite mode. -/
theorem prepare_overwrite (env : Env) (s : DkBatchProcess) (fs : FS) (c : Nat)
    (h1 : fsLookup fs s.filePathOut = some c) (h2 : s.mode = BatchMode.overwrite)
    (hpr : env.prepareRenameOk = true) (hbu : fsExists fs env.backupName = false) :
    DkBatchProcess.prepareDeleteExisting env s fs
      = (true, { s with backupFilePath := env.backupName },
         fsInsert (fsErase fs s.filePathOut) env.backupName c) := by
  unfold DkBatchProcess.prepareDeleteExisting
  rw [if_pos ⟨by simp [fsExists, h1], h2⟩]
  simp only [hbu, Bool.false_eq_true, if_false, ite_false]
  simp [fsRename, h1, hpr, hbu]

/-- deleteOrRestoreExisting deletes the backup when the output and the backup
both exist. -/
theorem finalize_delete (env : Env) (s : DkBatchProcess) (fs : FS)
    (hout : fsExists fs s.filePathOut = true) (hbu : s.backupFilePath ≠ "")
    (hbex : fsExists fs s.backupFilePath = true) (hrm : env.removeBackupOk = true) :
    DkBatchProcess.deleteOrRestoreExisting env s fs = (true, s, fsErase fs s.backupFilePath) := by
  unfold DkBatchProcess.deleteOrRestoreExisting
  rw [if_pos ⟨hout, hbu, hbex⟩]
  simp [fsRemove, hrm, hbex]

/-- deleteOrRestoreExisting does nothing when the output exists and no backup
file is pending. -/
theorem finalize_noop (env : Env) (s : DkBatchProcess) (fs : FS)
    (hout : fsExists fs s.filePathOut = true)
    (h2 : s.backupFilePath = "" ∨ fsExists fs s.backupFilePath = false) :
    DkBatchProcess.deleteOrRestoreExisting env s fs = (true, s, fs) := by
  unfold DkBatchProcess.deleteOrRestoreExisting
  rw [if_neg (by rcases h2 with h2 | h2 <;> simp [hout, h2]), if_neg (by simp [hout])]

/-- deleteOrRestoreExisting restores the backup to the output path when the
output is missing after the save attempt. -/
theorem finalize_restore (env : Env) (s : DkBatchProcess) (fs : FS) (c : Nat)
    (hout : fsExists fs s.filePathOut = false)
    (hbex : fsLookup fs s.backupFilePath = some c) (hr : env.restoreRenameOk = true) :
    DkBatchProcess.deleteOrRestoreExisting env s fs
      = (true,
         appendLog s
           ("I could not save to " ++ s.filePathOut ++ " so I restored the original file."),
         fsInsert (fsErase fs s.backupFilePath) s.filePathOut c) := by
  unfold DkBatchProcess.deleteOrRestoreExisting
  rw [if_neg (by simp [hout])]
  rw [if_pos (by simp [hout])]
  simp [fsRename, hbex, hr, hout]

/-- deleteOrRestoreExisting fails and logs the backup location when the
output is missing and the restoring rename itself fails. -/
theorem finalize_restore_fail (env : Env) (s : DkBatchProcess) (fs : FS)
    (hout : fsExists fs s.filePathOut = false)
    (hfail : fsRename env.restoreRenameOk fs s.backupFilePath s.filePathOut = none) :
    DkBatchProcess.deleteOrRestoreExisting env s fs
      = (false,
         appendLog s
           ("Ui - a lot of things went wrong, your original file can be found here: "
            ++ s.backupFilePath),
         fs) := by
  unfold DkBatchProcess.deleteOrRestoreExisting
  rw [if_neg (by simp [hout])]
  rw [if_pos (by simp [hout])]
  simp [hfail]

@[simp] theorem appendLog_filePathIn (st : DkBatchProcess) (s : String) :
    (appendLog st s).filePathIn = st.filePathIn := rfl

@[simp] theorem appendLog_filePathOut (st : DkBatchProcess) (s : String) :
    (appendLog st s).filePathOut = st.filePathOut := rfl

@[simp] theorem appendLog_mode (st : DkBatchProcess) (s : String) :
    (appendLog st s).mode = st.mode := rfl

@[simp] theorem appendLog_processChain (st : DkBatchProcess) (s : String) :
    (appendLog st s).processChain = st.processChain := rfl

@[simp] theorem appendLog_backupFilePath (st : DkBatchProcess) (s : String) :
    (appendLog st s).backupFilePath = st.backupFilePath := rfl

@[simp] theorem appendLog_failure (st : DkBatchProcess) (s : String) :
    (appendLog st s).failure = st.failure := rfl

@[simp] theorem appendLog_logStrings (st : DkBatchProcess) (s : String) :
    (appendLog st s).logStrings = st.logStrings ++ [s] := rfl

@[simp] theorem bumpFailure_filePathIn (st : DkBatchProcess) :
    (bumpFailure st).filePathIn = st.filePathIn := rfl

@[simp] theorem bumpFailure_filePathOut (st : DkBatchProcess) :
    (bumpFailure st).filePathOut = st.filePathOut := rfl

@[simp] theorem bumpFailure_mode (st : DkBatchProcess) :
    (bumpFailure st).mode = st.mode := rfl

@[simp] theorem bumpFailure_backupFilePath (st : DkBatchProcess) :
    (bumpFailure st).backupFilePath = st.backupFilePath := rfl

@[simp] theorem bumpFailure_failure (st : DkBatchProcess) :
    (bumpFailure st).failure = st.failure + 1 := rfl

@[simp] theorem bumpFailure_logStrings (st : DkBatchProcess) :
    (bumpFailure st).logStrings = st.logStrings := rfl

/-- deleteOrRestoreExisting fails without touching the file system when the
backup removal is refused by the environment. -/
theorem finalize_delete_fail (env : Env) (s : DkBatchProcess) (fs : FS)
    (hout : fsExists fs s.filePathOut = true) (hbu : s.backupFilePath ≠ "")
    (hbex : fsExists fs s.backupFilePath = true) (hrm : env.removeBackupOk = false) :
    DkBatchProcess.deleteOrRestoreExisting env s fs
      = (false, appendLog s "Error: could not delete existing file", fs) := by
  unfold DkBatchProcess.deleteOrRestoreExisting
  rw [if_pos ⟨hout, hbu, hbex⟩]
  simp [fsRemove, hrm]

/-- deleteOrRestoreExisting never touches the failure counter. -/
theorem finalize_failure_eq (env : Env) (s : DkBatchProcess) (fs : FS) :
    (DkBatchProcess.deleteOrRestoreExisting env s fs).2.1.failure = s.failure := by
  unfold DkBatchProcess.deleteOrRestoreExisting
  repeat' split
  all_goals simp

/-- The save call site is always reached in the save-and-finalize tail. -/
theorem saveFinalize_saveAttempted (env : Env) (img : Nat) (s : DkBatchProcess) (fs : FS) :
    (processSaveAndFinalize env img s fs).saveAttempted = true := by
  unfold processSaveAndFinalize
  dsimp only
  repeat' split
  all_goals rfl

/-- The save-and-finalize tail never decreases the failure counter. -/
theorem saveFinalize_failure_ge (env : Env) (img : Nat) (s : DkBatchProcess) (fs : FS) :
    s.failure ≤ (processSaveAndFinalize env img s fs).st.failure := by
  unfold processSaveAndFinalize
  dsimp only
  by_cases hsv : env.saveOk = true
  all_goals simp only [hsv, Bool.false_eq_true, if_true, if_false, ite_true, ite_false]
  all_goals split
  all_goals simp [finalize_failure_eq]
  all_goals omega

/-- After a successful save, the output file holds the image that came out of
the step chain, whatever the finalize step does to the backup. -/
theorem saveFinalize_lookup (env : Env) (img : Nat) (s : DkBatchProcess) (fs : FS)
    (hsv : env.saveOk = true)
    (hb : s.backupFilePath = "" ∨ s.backupFilePath ≠ s.filePathOut) :
    fsLookup (processSaveAndFinalize env img s fs).fs s.filePathOut = some img := by
  unfold processSaveAndFinalize
  dsimp only
  simp only [hsv, ite_true, if_true]
  by_cases hbu0 : s.backupFilePath = ""
  · rw [finalize_noop env (appendLog s (s.filePathOut ++ " saved..."))
        (fsInsert fs s.filePathOut img) (by simp [fsExists_insert]) (Or.inl (by simpa using hbu0))]
    simp
  · by_cases hbex : fsExists (fsInsert fs s.filePathOut img) s.backupFilePath = true
    · by_cases hrm : env.removeBackupOk = true
      · rw [finalize_delete env (appendLog s (s.filePathOut ++ " saved..."))
            (fsInsert fs s.filePathOut img) (by simp [fsExists_insert]) (by simpa using hbu0)
            (by simpa using hbex) hrm]
        simp [fsLookup_erase, Ne.symm (hb.resolve_left hbu0)]
      · rw [finalize_delete_fail env (appendLog s (s.filePathOut ++ " saved..."))
            (fsInsert fs s.filePathOut img) (by simp [fsExists_insert]) (by simpa using hbu0)
            (by simpa using hbex) (by revert hrm; cases env.removeBackupOk <;> simp)]
        simp
    · rw [finalize_noop env (appendLog s (s.filePathOut ++ " saved..."))
          (fsInsert fs s.filePathOut img) (by simp [fsExists_insert])
          (Or.inr (by rw [← Bool.not_eq_true]; exact hbex))]
      simp

/-- After a successful load under a fresh backup name, process() always runs
the whole chain and reaches the save-and-finalize tail with the chain result
as the image to save. -/
theorem process_shape (env : Env) (st : DkBatchProcess) (fs : FS) (img0 : Nat)
    (hload : env.loadOk = true) (hin : fsLookup fs st.filePathIn = some img0)
    (hpr : env.prepareRenameOk = true) (hbu : fsExists fs env.backupName = false)
    (hb0 : st.backupFilePath = "") :
    ∃ (s2 : DkBatchProcess) (fs2 : FS),
      DkBatchProcess.process env st fs
        = processSaveAndFinalize env (foldSteps st.processChain img0) s2 fs2
      ∧ s2.filePathOut = st.filePathOut
      ∧ s2.failure = st.failure + countStepFailures st.processChain img0
      ∧ (s2.backupFilePath = "" ∨ s2.backupFilePath ≠ s2.filePathOut) := by
  unfold DkBatchProcess.process
  simp only [hload, eq_self_iff_true, ite_true, appendLog_filePathIn, hin,
             appendLog_processChain]
  obtain ⟨hp1, hp2, hp3, hp4, hp5, hp6⟩ :=
    runSteps_preserves st.processChain img0 (appendLog st ("processing " ++ st.filePathIn))
  obtain ⟨hf1, hf2⟩ :=
    runSteps_img_failure st.processChain img0 (appendLog st ("processing " ++ st.filePathIn))
  by_cases hover : fsExists fs st.filePathOut = true ∧ st.mode = BatchMode.overwrite
  · obtain ⟨c, hc⟩ := (fsExists_lookup fs st.filePathOut).1 hover.1
    rw [prepare_overwrite env
        (runSteps st.processChain img0 (appendLog st ("processing " ++ st.filePathIn))).2 fs c
        (by rw [hp2]; exact hc) (by rw [hp3]; exact hover.2) hpr hbu]
    simp only [Bool.not_true, Bool.false_eq_true, if_false, ite_false]
    refine ⟨_, _, by rw [hf1], by simpa using hp2, by simpa using hf2, Or.inr ?_⟩
    have hne : env.backupName ≠ st.filePathOut := by
      intro heq
      rw [heq] at hbu
      rw [hover.1] at hbu
      exact Bool.noConfusion hbu
    simpa [hp2] using hne
  · rw [prepare_not_overwrite env
        (runSteps st.processChain img0 (appendLog st ("processing " ++ st.filePathIn))).2 fs
        (by rw [hp2, hp3]; exact hover)]
    simp only [Bool.not_true, Bool.false_eq_true, if_false, ite_false]
    refine ⟨_, _, by rw [hf1], hp2, by simpa using hf2, Or.inl ?_⟩
    rw [hp4]
    simpa using hb0

/-- C5: a step failure never aborts the chain: the step loop always runs every
entry in order (its result is the full fold and it adds exactly one failure
per failing step), and whenever process() has a loadable image and the backup
prepare goes through, the save is still attempted after the whole chain,
writing the full chain result; the failure counter retains every step
failure. -/
theorem process_steps_never_abort (env : Env) (st : DkBatchProcess) (fs : FS) (img0 : Nat)
    (hload : env.loadOk = true) (hin : fsLookup fs st.filePathIn = some img0)
    (hpr : env.prepareRenameOk = true) (hbu : fsExists fs env.backupName = false)
    (hb0 : st.backupFilePath = "") :
    (∀ (c : List (Option AbsStep)) (i : Nat) (s : DkBatchProcess),
        (runSteps c i s).1 = foldSteps c i
        ∧ (runSteps c i s).2.failure = s.failure + countStepFailures c i)
    ∧ (DkBatchProcess.process env st fs).saveAttempted = true
    ∧ (env.saveOk = true →
        fsLookup (DkBatchProcess.process env st fs).fs st.filePathOut
          = some (foldSteps st.processChain img0))
    ∧ st.failure + countStepFailures st.processChain img0
        ≤ (DkBatchProcess.process env st fs).st.failure := by
  obtain ⟨s2, fs2, heq, ho, hfail, hb⟩ := process_shape env st fs img0 hload hin hpr hbu hb0
  refine ⟨fun c i s => runSteps_img_failure c i s, ?_, ?_, ?_⟩
  · rw [heq]
    exact saveFinalize_saveAttempted _ _ _ _
  · intro hsv
    rw [heq, ← ho]
    exact saveFinalize_lookup env _ s2 fs2 hsv hb
  · rw [heq, ← hfail]
    exact saveFinalize_failure_ge _ _ _ _

/-- Witness for C5: one failing step still reaches the save, which writes the
image produced by that step. -/
theorem process_steps_never_abort_witness :
    (DkBatchProcess.process { backupName := "bk" }
        { filePathIn := "i.jpg", filePathOut := "o.jpg", mode := BatchMode.overwrite,
          processChain := [some ⟨"s1", fun n => (false, n + 1)⟩] }
        [("i.jpg", 4)]).saveAttempted = true
    ∧ fsLookup
        (DkBatchProcess.process { backupName := "bk" }
          { filePathIn := "i.jpg", filePathOut := "o.jpg", mode := BatchMode.overwrite,
            processChain := [some ⟨"s1", fun n => (false, n + 1)⟩] }
          [("i.jpg", 4)]).fs "o.jpg" = some 5 :=
  ⟨(process_steps_never_abort { backupName := "bk" }
      { filePathIn := "i.jpg", filePathOut := "o.jpg", mode := BatchMode.overwrite,
        processChain := [some ⟨"s1", fun n => (false, n + 1)⟩] }
      [("i.jpg", 4)] 4 rfl (by decide) rfl (by decide) rfl).2.1,
   Eq.trans
     ((process_steps_never_abort { backupName := "bk" }
        { filePathIn := "i.jpg", filePathOut := "o.jpg", mode := BatchMode.overwrite,
          processChain := [some ⟨"s1", fun n => (false, n + 1)⟩] }
        [("i.jpg", 4)] 4 rfl (by decide) rfl (by decide) rfl).2.2.1 rfl) rfl⟩

/-- Clean save-and-finalize: with a successful save and a grantable backup
removal, the tail adds no failure and the output holds the saved image. -/
theorem saveFinalize_clean (env : Env) (img : Nat) (s : DkBatchProcess) (fs : FS)
    (hsv : env.saveOk = true) (hrm : env.removeBackupOk = true)
    (hb : s.backupFilePath = "" ∨ s.backupFilePath ≠ s.filePathOut) :
    (processSaveAndFinalize env img s fs).st.failure = s.failure
    ∧ fsLookup (processSaveAndFinalize env img s fs).fs s.filePathOut = some img := by
  unfold processSaveAndFinalize
  dsimp only
  simp only [hsv, ite_true, if_true]
  by_cases hbu0 : s.backupFilePath = ""
  · rw [finalize_noop env (appendLog s (s.filePathOut ++ " saved..."))
        (fsInsert fs s.filePathOut img) (by simp [fsExists_insert]) (Or.inl (by simpa using hbu0))]
    simp
  · by_cases hbex : fsExists (fsInsert fs s.filePathOut img) s.backupFilePath = true
    · rw [finalize_delete env (appendLog s (s.filePathOut ++ " saved..."))
          (fsInsert fs s.filePathOut img) (by simp [fsExists_insert]) (by simpa using hbu0)
          (by simpa using hbex) hrm]
      refine ⟨by simp, ?_⟩
      simp [fsLookup_erase, Ne.symm (hb.resolve_left hbu0)]
    · rw [finalize_noop env (appendLog s (s.filePathOut ++ " saved..."))
          (fsInsert fs s.filePathOut img) (by simp [fsExists_insert])
          (Or.inr (by rw [← Bool.not_eq_true]; exact hbex))]
      simp

theorem foldSteps_nulls (n : Nat) (img : Nat) :
    foldSteps (List.replicate n none) img = img := by
  induction n with
  | zero => simp [foldSteps]
  | succ k ih => simp [List.replicate_succ, foldSteps, ih]

theorem countStepFailures_nulls (n : Nat) (img : Nat) :
    countStepFailures (List.replicate n none) img = 0 := by
  induction n with
  | zero => simp [countStepFailures]
  | succ k ih => simp [List.replicate_succ, countStepFailures, ih]

/-- C10: a null chain entry is logged and skipped without incrementing the
failure counter and without aborting the loop, and an all-null chain on a
loadable image still reaches the save attempt with the failure count
determined only by the other stages (zero extra failures in a clean
environment, with the input image saved unchanged). -/
theorem process_null_steps (env : Env) (st : DkBatchProcess) (fs : FS) (img0 n : Nat)
    (hchain : st.processChain = List.replicate n none)
    (hload : env.loadOk = true) (hin : fsLookup fs st.filePathIn = some img0)
    (hpr : env.prepareRenameOk = true) (hbu : fsExists fs env.backupName = false)
    (hb0 : st.backupFilePath = "") (hsv : env.saveOk = true)
    (hrm : env.removeBackupOk = true) :
    (∀ (rest : List (Option AbsStep)) (i : Nat) (s : DkBatchProcess),
        runSteps (none :: rest) i s = runSteps rest i (appendLog s nullStepMsg))
    ∧ (DkBatchProcess.process env st fs).saveAttempted = true
    ∧ (DkBatchProcess.process env st fs).st.failure = st.failure
    ∧ fsLookup (DkBatchProcess.process env st fs).fs st.filePathOut = some img0 := by
  obtain ⟨s2, fs2, heq, ho, hfail, hb⟩ := process_shape env st fs img0 hload hin hpr hbu hb0
  have hcl := saveFinalize_clean env (foldSteps st.processChain img0) s2 fs2 hsv hrm hb
  refine ⟨fun rest i s => rfl, ?_, ?_, ?_⟩
  · rw [heq]
    exact saveFinalize_saveAttempted _ _ _ _
  · rw [heq, hcl.1, hfail, hchain, countStepFailures_nulls]
    simp
  · rw [heq, ← ho, hcl.2, hchain, foldSteps_nulls]

/-- Witness for C10: a chain of two null entries saves the input image
unchanged with no failure. -/
theorem process_null_steps_witness :
    (DkBatchProcess.process { backupName := "bk" }
        { filePathIn := "i.png", filePathOut := "o.png",
          processChain := List.replicate 2 none }
        [("i.png", 9)]).st.failure = 0
    ∧ fsLookup
        (DkBatchProcess.process { backupName := "bk" }
          { filePathIn := "i.png", filePathOut := "o.png",
            processChain := List.replicate 2 none }
          [("i.png", 9)]).fs "o.png" = some 9 :=
  ⟨(process_null_steps { backupName := "bk" }
      { filePathIn := "i.png", filePathOut := "o.png",
        processChain := List.replicate 2 none }
      [("i.png", 9)] 9 2 rfl rfl (by decide) rfl (by decide) rfl rfl rfl).2.2.1,
   (process_null_steps { backupName := "bk" }
      { filePathIn := "i.png", filePathOut := "o.png",
        processChain := List.replicate 2 none }
      [("i.png", 9)] 9 2 rfl rfl (by decide) rfl (by decide) rfl rfl rfl).2.2.2⟩

/-- After a clean save, a pending nonempty backup (distinct from the output)
is gone. -/
theorem saveFinalize_backup_gone (env : Env) (img : Nat) (s : DkBatchProcess) (fs : FS)
    (hsv : env.saveOk = true) (hrm : env.removeBackupOk = true)
    (hbu0 : s.backupFilePath ≠ "") :
    fsExists (processSaveAndFinalize env img s fs).fs s.backupFilePath = false := by
  unfold processSaveAndFinalize
  dsimp only
  simp only [hsv, ite_true, if_true]
  by_cases hbex : fsExists (fsInsert fs s.filePathOut img) s.backupFilePath = true
  · rw [finalize_delete env (appendLog s (s.filePathOut ++ " saved..."))
        (fsInsert fs s.filePathOut img) (by simp [fsExists_insert]) (by simpa using hbu0)
        (by simpa using hbex) hrm]
    simp [fsExists_erase]
  · rw [finalize_noop env (appendLog s (s.filePathOut ++ " saved..."))
        (fsInsert fs s.filePathOut img) (by simp [fsExists_insert])
        (Or.inr (by rw [← Bool.not_eq_true]; exact hbex))]
    simp only []
    rw [← Bool.not_eq_true]
    exact hbex

/-- Failed save followed by a successful restore of the backup. -/
theorem saveFinalize_restore (env : Env) (img : Nat) (s : DkBatchProcess) (fs : FS) (c : Nat)
    (hsv : env.saveOk = false)
    (hout : fsExists fs s.filePathOut = false)
    (hbex : fsLookup fs s.backupFilePath = some c)
    (hr : env.restoreRenameOk = true) :
    processSaveAndFinalize env img s fs
      = { ok := true,
          st := appendLog (bumpFailure (appendLog s ("Could not save: " ++ s.filePathOut)))
                  ("I could not save to " ++ s.filePathOut ++ " so I restored the original file."),
          fs := fsInsert (fsErase fs s.backupFilePath) s.filePathOut c,
          saveAttempted := true } := by
  unfold processSaveAndFinalize
  dsimp only
  simp only [hsv, Bool.false_eq_true, ite_false, if_false]
  rw [finalize_restore env (bumpFailure (appendLog s ("Could not save: " ++ s.filePathOut))) fs c
      (by simpa using hout) (by simpa using hbex) hr]
  simp

theorem fsRename_env_false (fs : FS) (src dst : FPath) :
    fsRename false fs src dst = none := by
  unfold fsRename
  cases fsLookup fs src <;> simp

/-- Failed save followed by a failed restore: the item fails, the log points
at the backup, and the file system is left as it was after the failed save. -/
theorem saveFinalize_restore_fail (env : Env) (img : Nat) (s : DkBatchProcess) (fs : FS)
    (hsv : env.saveOk = false)
    (hout : fsExists fs s.filePathOut = false)
    (hr : env.restoreRenameOk = false) :
    processSaveAndFinalize env img s fs
      = { ok := false,
          st := bumpFailure
                  (appendLog (bumpFailure (appendLog s ("Could not save: " ++ s.filePathOut)))
                    ("Ui - a lot of things went wrong, your original file can be found here: "
                     ++ s.backupFilePath)),
          fs := fs, saveAttempted := true } := by
  unfold processSaveAndFinalize
  dsimp only
  simp only [hsv, Bool.false_eq_true, ite_false, if_false]
  rw [finalize_restore_fail env (bumpFailure (appendLog s ("Could not save: " ++ s.filePathOut))) fs
      (by simpa using hout)
      (by rw [hr]; exact fsRename_env_false _ _ _)]
  simp

/-- In overwrite mode over an existing output, with a fresh backup name,
process() reduces to the save-and-finalize tail on the backed-up file
system. -/
theorem process_overwrite_shape (env : Env) (st : DkBatchProcess) (fs : FS) (orig imgv : Nat)
    (hload : env.loadOk = true) (hpr : env.prepareRenameOk = true)
    (hmode : st.mode = BatchMode.overwrite)
    (hout : fsLookup fs st.filePathOut = some orig)
    (hin : fsLookup fs st.filePathIn = some imgv)
    (hbfs : fsExists fs env.backupName = false) :
    DkBatchProcess.process env st fs
      = processSaveAndFinalize env (foldSteps st.processChain imgv)
          { (runSteps st.processChain imgv (appendLog st ("processing " ++ st.filePathIn))).2
              with backupFilePath := env.backupName }
          (fsInsert (fsErase fs st.filePathOut) env.backupName orig) := by
  unfold DkBatchProcess.process
  simp only [hload, eq_self_iff_true, ite_true, appendLog_filePathIn, hin,
             appendLog_processChain]
  obtain ⟨hp1, hp2, hp3, hp4, hp5, hp6⟩ :=
    runSteps_preserves st.processChain imgv (appendLog st ("processing " ++ st.filePathIn))
  obtain ⟨hf1, hf2⟩ :=
    runSteps_img_failure st.processChain imgv (appendLog st ("processing " ++ st.filePathIn))
  rw [prepare_overwrite env
      (runSteps st.processChain imgv (appendLog st ("processing " ++ st.filePathIn))).2 fs orig
      (by rw [hp2]; exact hout) (by rw [hp3]; exact hmode) hpr hbfs]
  simp only [Bool.not_true, Bool.false_eq_true, if_false, ite_false]
  rw [hf1]
  rw [hp2]
  simp


/-- C2: backup round trip in overwrite mode over an existing output O.
After prepare plus a successful save, finalize deletes the backup: O holds
the chain result and the backup is gone.  After prepare plus a failed save,
finalize renames the backup back: O holds its original content, no backup
remains, and the restore is logged.  If the restoring rename itself fails,
the backup location is logged and the item fails, with the original content
still available at the backup path. -/
theorem backup_roundtrip (st : DkBatchProcess) (fs : FS) (orig imgv : Nat) (b : FPath)
    (hmode : st.mode = BatchMode.overwrite)
    (hout : fsLookup fs st.filePathOut = some orig)
    (hin : fsLookup fs st.filePathIn = some imgv)
    (hbfs : fsExists fs b = false) (hbne : b ≠ "") :
    (fsLookup (DkBatchProcess.process { backupName := b } st fs).fs st.filePathOut
        = some (foldSteps st.processChain imgv)
     ∧ fsExists (DkBatchProcess.process { backupName := b } st fs).fs b = false)
    ∧ (fsLookup (DkBatchProcess.process { backupName := b, saveOk := false } st fs).fs
          st.filePathOut = some orig
       ∧ fsExists (DkBatchProcess.process { backupName := b, saveOk := false } st fs).fs b
          = false
       ∧ ("I could not save to " ++ st.filePathOut ++ " so I restored the original file.")
          ∈ (DkBatchProcess.process { backupName := b, saveOk := false } st fs).st.logStrings)
    ∧ ((DkBatchProcess.process { backupName := b, saveOk := false, restoreRenameOk := false }
          st fs).ok = false
       ∧ (DkBatchProcess.process { backupName := b, saveOk := false, restoreRenameOk := false }
            st fs).st.failure ≠ 0
       ∧ ("Ui - a lot of things went wrong, your original file can be found here: " ++ b)
          ∈ (DkBatchProcess.process { backupName := b, saveOk := false, restoreRenameOk := false }
              st fs).st.logStrings
       ∧ fsLookup
            (DkBatchProcess.process { backupName := b, saveOk := false, restoreRenameOk := false }
              st fs).fs b = some orig) := by
  have hbo : b ≠ st.filePathOut := by
    intro heq
    unfold fsExists at hbfs
    rw [heq, hout] at hbfs
    simp at hbfs
  obtain ⟨hp1, hp2, hp3, hp4, hp5, hp6⟩ :=
    runSteps_preserves st.processChain imgv (appendLog st ("processing " ++ st.filePathIn))
  simp only [appendLog_filePathOut] at hp2
  have hRo : ({ (runSteps st.processChain imgv (appendLog st ("processing " ++ st.filePathIn))).2
      with backupFilePath := b } : DkBatchProcess).filePathOut = st.filePathOut := hp2
  have hRb : ({ (runSteps st.processChain imgv (appendLog st ("processing " ++ st.filePathIn))).2
      with backupFilePath := b } : DkBatchProcess).backupFilePath = b := rfl
  have hO : fsExists (fsInsert (fsErase fs st.filePathOut) b orig)
      ({ (runSteps st.processChain imgv (appendLog st ("processing " ++ st.filePathIn))).2
        with backupFilePath := b } : DkBatchProcess).filePathOut = false := by
    rw [hRo]
    simp [fsExists_insert, fsExists_erase, Ne.symm hbo]
  have hB : fsLookup (fsInsert (fsErase fs st.filePathOut) b orig)
      ({ (runSteps st.processChain imgv (appendLog st ("processing " ++ st.filePathIn))).2
        with backupFilePath := b } : DkBatchProcess).backupFilePath = some orig := by
    rw [hRb]
    simp
  refine ⟨⟨?_, ?_⟩, ⟨?_, ?_, ?_⟩, ?_, ?_, ?_, ?_⟩
  · rw [process_overwrite_shape { backupName := b } st fs orig imgv rfl rfl hmode hout hin hbfs,
        ← hRo]
    exact (saveFinalize_clean { backupName := b } (foldSteps st.processChain imgv) _ _ rfl rfl
      (Or.inr (by rw [hRb, hRo]; exact hbo))).2
  · rw [process_overwrite_shape { backupName := b } st fs orig imgv rfl rfl hmode hout hin hbfs,
        ← hRb]
    exact saveFinalize_backup_gone { backupName := b } (foldSteps st.processChain imgv) _ _
      rfl rfl (by rw [hRb]; exact hbne)
  · rw [process_overwrite_shape { backupName := b, saveOk := false } st fs orig imgv rfl rfl
          hmode hout hin hbfs,
        saveFinalize_restore { backupName := b, saveOk := false }
          (foldSteps st.processChain imgv) _ _ orig rfl hO hB rfl]
    dsimp only
    rw [hp2]
    simp
  · rw [process_overwrite_shape { backupName := b, saveOk := false } st fs orig imgv rfl rfl
          hmode hout hin hbfs,
        saveFinalize_restore { backupName := b, saveOk := false }
          (foldSteps st.processChain imgv) _ _ orig rfl hO hB rfl]
    dsimp only
    rw [hp2]
    simp [fsExists_insert, fsExists_erase, hbo]
  · rw [process_overwrite_shape { backupName := b, saveOk := false } st fs orig imgv rfl rfl
          hmode hout hin hbfs,
        saveFinalize_restore { backupName := b, saveOk := false }
          (foldSteps st.processChain imgv) _ _ orig rfl hO hB rfl]
    dsimp only
    rw [hp2]
    simp
  · rw [process_overwrite_shape { backupName := b, saveOk := false, restoreRenameOk := false }
          st fs orig imgv rfl rfl hmode hout hin hbfs,
        saveFinalize_restore_fail { backupName := b, saveOk := false, restoreRenameOk := false }
          (foldSteps st.processChain imgv) _ _ rfl hO rfl]
  · rw [process_overwrite_shape { backupName := b, saveOk := false, restoreRenameOk := false }
          st fs orig imgv rfl rfl hmode hout hin hbfs,
        saveFinalize_restore_fail { backupName := b, saveOk := false, restoreRenameOk := false }
          (foldSteps st.processChain imgv) _ _ rfl hO rfl]
    simp
  · rw [process_overwrite_shape { backupName := b, saveOk := false, restoreRenameOk := false }
          st fs orig imgv rfl rfl hmode hout hin hbfs,
        saveFinalize_restore_fail { backupName := b, saveOk := false, restoreRenameOk := false }
          (foldSteps st.processChain imgv) _ _ rfl hO rfl]
    dsimp only
    simp
  · rw [process_overwrite_shape { backupName := b, saveOk := false, restoreRenameOk := false }
          st fs orig imgv rfl rfl hmode hout hin hbfs,
        saveFinalize_restore_fail { backupName := b, saveOk := false, restoreRenameOk := false }
          (foldSteps st.processChain imgv) _ _ rfl hO rfl]
    simp

/-- Witness for C2: with an empty chain, a successful save overwrites O with
the new content, and a failed save restores the original content of O. -/
theorem backup_roundtrip_witness :
    fsLookup (DkBatchProcess.process { backupName := "bk" }
        { filePathIn := "in.jpg", filePathOut := "out.jpg", mode := BatchMode.overwrite }
        [("out.jpg", 1), ("in.jpg", 2)]).fs "out.jpg" = some 2
    ∧ fsLookup (DkBatchProcess.process { backupName := "bk", saveOk := false }
        { filePathIn := "in.jpg", filePathOut := "out.jpg", mode := BatchMode.overwrite }
        [("out.jpg", 1), ("in.jpg", 2)]).fs "out.jpg" = some 1 :=
  ⟨Eq.trans
    (backup_roundtrip
      { filePathIn := "in.jpg", filePathOut := "out.jpg", mode := BatchMode.overwrite }
      [("out.jpg", 1), ("in.jpg", 2)] 1 2 "bk" rfl (by decide) (by decide) (by decide)
      (by decide)).1.1 rfl,
   (backup_roundtrip
      { filePathIn := "in.jpg", filePathOut := "out.jpg", mode := BatchMode.overwrite }
      [("out.jpg", 1), ("in.jpg", 2)] 1 2 "bk" rfl (by decide) (by decide) (by decide)
      (by decide)).2.1.1⟩

/-! The geometric transform step (DkBatchTransform) over an abstract QImage
and image container.  QImage values are syntax trees of the opaque Qt
geometry operations; the stored metadata crop region is an Option (none is
an empty DkRotatingRect). -/

/-- Abstract QImage: null, a concrete pixmap, or the result of an opaque
crop / rotate / mirror operation. -/
inductive QImage
  | null
  | pix (id : Nat)
  | cropped (img : QImage) (r : Nat)
  | rotated (img : QImage) (angle : Int)
  | mirrored (img : QImage) (h v : Bool)
deriving DecidableEq

/-- QImage::isNull. -/
def QImage.isNull : QImage → Bool
  | QImage.null => true
  | _ => false

/-- QImage::transformed with a rotation matrix: null stays null, anything
else becomes the rotated image. -/
def QImage.transformedRotate : QImage → Int → QImage
  | QImage.null, _ => QImage.null
  | i, a => QImage.rotated i a

/-- QImage::mirrored on both axes flags: null stays null. -/
def QImage.applyMirrored : QImage → Bool → Bool → QImage
  | QImage.null, _, _ => QImage.null
  | i, h, v => QImage.mirrored i h v

/-- Crop of a QImage to a region: null stays null. -/
def QImage.applyCropped : QImage → Nat → QImage
  | QImage.null, _ => QImage.null
  | i, r => QImage.cropped i r

/-- DkImageContainer as the transform step sees it: the current image and the
metadata crop region (none when DkRotatingRect::isEmpty). -/
structure DkImageContainer where
  img : QImage
  cropRectMeta : Option Nat

/-- DkImageContainer::cropRect. -/
def DkImageContainer.cropRect (c : DkImageContainer) : Option Nat :=
  c.cropRectMeta

/-- DkImageContainer::cropImage: replace the stored image by its crop. -/
def DkImageContainer.cropImage (c : DkImageContainer) (r : Nat) : DkImageContainer :=
  { c with img := QImage.applyCropped c.img r }

/-- The transform step parameters (DkBatchTransform::setProperties). -/
structure DkBatchTransform where
  angle : Int := 0
  horizontalFlip : Bool := false
  verticalFlip : Bool := false
  cropFromMetadata : Bool := false

/-- DkBatchTransform::isActive. -/
def DkBatchTransform.isActive (t : DkBatchTransform) : Bool :=
  t.horizontalFlip || t.verticalFlip || decide (t.angle ≠ 0) || t.cropFromMetadata

/-- DkBatchTransform::compute, returning (success, container, log).  The C++
body crops the container in place when asked, then computes the rotated and
mirrored image into the LOCAL variables img and tmpImg; the final assignment
img = tmpImg writes a local copy and the container image is never updated
with the rotated or mirrored result. -/
def DkBatchTransform.compute (t : DkBatchTransform) (c0 : DkImageContainer)
    (log : List String) : Bool × DkImageContainer × List String :=
  if !t.isActive then
    (true, c0, log ++ ["[Transform Batch] inactive -> skipping"])
  else
    let rect := c0.cropRect
    let c := if t.cropFromMetadata then
               (match rect with
                | some r => c0.cropImage r
                | none => c0)
             else c0
    let img := c.img
    let tmpImg := if t.angle ≠ 0 then QImage.transformedRotate img t.angle else img
    let tmpImg := QImage.applyMirrored tmpImg t.horizontalFlip t.verticalFlip
    if !tmpImg.isNull then
      (true, c,
       log ++ [if rect.isNone && t.cropFromMetadata then "[Transform Batch] image transformed."
               else "[Transform Batch] image transformed and cropped."])
    else
      (false, c, log ++ ["[Transform Batch] error, could not transform image."])

/-- C3 (code bug): a transform step with angle 90 and no crop, applied to a
container with a valid image, reports success, but the container still holds
the ORIGINAL image: the rotated and mirrored result the claim requires is
computed and then dropped (it differs from the original). -/
theorem transform_compute_drops_rotation :
    (DkBatchTransform.compute { angle := 90 }
        { img := QImage.pix 0, cropRectMeta := none } []).1 = true
    ∧ (DkBatchTransform.compute { angle := 90 }
        { img := QImage.pix 0, cropRectMeta := none } []).2.1.img = QImage.pix 0
    ∧ QImage.applyMirrored (QImage.transformedRotate (QImage.pix 0) 90) false false
        ≠ QImage.pix 0
    ∧ (∀ (t : DkBatchTransform) (c0 : DkImageContainer) (log : List String),
        ((DkBatchTransform.compute t c0 log).2.1.img = c0.img
         ∨ (∃ r, c0.cropRectMeta = some r
             ∧ (DkBatchTransform.compute t c0 log).2.1.img = QImage.applyCropped c0.img r))) := by
  refine ⟨rfl, rfl, by decide, ?_⟩
  intro t c0 log
  unfold DkBatchTransform.compute
  dsimp only
  split
  · exact Or.inl rfl
  · by_cases hcm : t.cropFromMetadata = true
    · rcases hr : c0.cropRect with _ | r
      · simp only [DkImageContainer.cropRect] at hr
        simp only [DkImageContainer.cropRect, hr, hcm, ite_true]
        left
        repeat' split
        all_goals rfl
      · simp only [DkImageContainer.cropRect] at hr
        simp only [DkImageContainer.cropRect, hr, hcm, ite_true]
        right
        refine ⟨r, rfl, ?_⟩
        repeat' split
        all_goals rfl
    · rw [Bool.not_eq_true] at hcm
      simp only [DkImageContainer.cropRect, hcm, Bool.false_eq_true, ite_false, if_false]
      left
      repeat' split
      all_goals rfl

/-! The resize step (DkResizeBatch).  Float arithmetic is modelled over the
rationals; the resize itself (DkImage::resizeImage) and the image size are
opaque collaborator functions. -/

/-- QSize with Qt int components. -/
structure QSize where
  w : Int
  h : Int
deriving DecidableEq

/-- QSize::transpose. -/
def QSize.transpose (s : QSize) : QSize := ⟨s.h, s.w⟩

/-- Resize modes (mode_default / mode_long_side / mode_short_side /
mode_height / mode_width). -/
inductive ResizeMode
  | modeDefault
  | modeLongSide
  | modeShortSide
  | modeHeight
  | modeWidth
deriving DecidableEq

/-- Resize policy (prop_default / prop_increase_only / prop_decrease_only). -/
inductive ResizeProperty
  | propDefault
  | propIncreaseOnly
  | propDecreaseOnly
deriving DecidableEq

/-- The resize step parameters (DkResizeBatch::setProperties). -/
structure DkResizeBatch where
  scaleFactor : Rat := 1
  mode : ResizeMode := ResizeMode.modeDefault
  property : ResizeProperty := ResizeProperty.propDefault
  iplMethod : Nat := 0
  correctGamma : Bool := false

/-- DkResizeBatch::isActive. -/
def DkResizeBatch.isActive (r : DkResizeBatch) : Bool :=
  if r.mode ≠ ResizeMode.modeDefault then true
  else if r.scaleFactor ≠ 1 then true
  else false

/-- The normalized size of prepareProperties: transpose so that the side the
target length applies to lies on the width. -/
def DkResizeBatch.normalizedSize (r : DkResizeBatch) (imgSize : QSize) : QSize :=
  match r.mode with
  | ResizeMode.modeLongSide =>
    if imgSize.w < imgSize.h then imgSize.transpose else imgSize
  | ResizeMode.modeShortSide =>
    if imgSize.w > imgSize.h then imgSize.transpose else imgSize
  | ResizeMode.modeHeight => imgSize.transpose
  | _ => imgSize

/-- The local scale factor sf of prepareProperties: target divided by the
normalized width. -/
def DkResizeBatch.computedFactor (r : DkResizeBatch) (imgSize : QSize) : Rat :=
  r.scaleFactor / ((r.normalizedSize imgSize).w : Rat)

/-- Qt qRound. -/
def qRound (x : Rat) : Int :=
  if 0 ≤ x then Int.floor (x + (1 : Rat) / 2) else Int.ceil (x - (1 : Rat) / 2)

/-- DkResizeBatch::prepareProperties: decide whether to resize; on success
report the target size (the out parameters size0 and sf0 are left untouched
on the skip paths, and sf is only written in mode_default). -/
def DkResizeBatch.prepareProperties (r : DkResizeBatch) (imgSize : QSize) (size0 : QSize)
    (sf0 : Rat) (log : List String) : Bool × QSize × Rat × List String :=
  if r.mode = ResizeMode.modeDefault then (true, size0, r.scaleFactor, log)
  else
    let nsz := r.normalizedSize imgSize
    let sf := r.computedFactor imgSize
    if sf > 1 ∧ r.property = ResizeProperty.propDecreaseOnly then
      (false, size0, sf0,
       log ++ ["[Resize Batch] I need to increase the image, but the option is set to decrease only -> skipping."])
    else if sf < 1 ∧ r.property = ResizeProperty.propIncreaseOnly then
      (false, size0, sf0,
       log ++ ["[Resize Batch] I need to decrease the image, but the option is set to increase only -> skipping."])
    else if sf = 1 then
      (false, size0, sf0, log ++ ["[Resize Batch] image size matches scale factor -> skipping."])
    else
      let size := QSize.mk (qRound r.scaleFactor) (qRound (sf * (nsz.h : Rat)))
      (true, if nsz ≠ imgSize then size.transpose else size, sf0, log)

/-- DkResizeBatch::compute over an abstract image, parameterized by the
opaque size accessor and DkImage::resizeImage collaborator. -/
def DkResizeBatch.compute (r : DkResizeBatch) (sizeOf : QImage → QSize)
    (resizeImage : QImage → QSize → Rat → QImage) (img : QImage) (log : List String) :
    Bool × QImage × List String :=
  if r.scaleFactor = 1 then
    (true, img, log ++ ["[Resize Batch] scale factor is 1 -> ignoring"])
  else
    let p := r.prepareProperties (sizeOf img) (QSize.mk (-1) (-1)) 1 log
    if p.1 then
      let tmpImg := resizeImage img p.2.1 p.2.2.1
      if tmpImg.isNull then
        (false, img, p.2.2.2 ++ ["[Resize Batch] could not resize image."])
      else
        (true, tmpImg, p.2.2.2 ++ ["[Resize Batch] image resized."])
    else
      (true, img, p.2.2.2 ++ ["[Resize Batch] no need for resizing."])

/-- C6: a configured scale factor of exactly 1 short-circuits the resize step
to a no-op success in every mode; and in the side modes (where the factor is
computed from the normalized width), a policy of increase-only with computed
factor below 1, or decrease-only with computed factor above 1, is a no-op
success as well, never a failure. -/
theorem resize_noop_policies (r : DkResizeBatch) (sizeOf : QImage → QSize)
    (resizeImage : QImage → QSize → Rat → QImage) (img : QImage) (log : List String) :
    (r.scaleFactor = 1 →
      (r.compute sizeOf resizeImage img log).1 = true
      ∧ (r.compute sizeOf resizeImage img log).2.1 = img)
    ∧ (r.mode ≠ ResizeMode.modeDefault → r.property = ResizeProperty.propIncreaseOnly →
        r.computedFactor (sizeOf img) < 1 →
        (r.compute sizeOf resizeImage img log).1 = true
        ∧ (r.compute sizeOf resizeImage img log).2.1 = img)
    ∧ (r.mode ≠ ResizeMode.modeDefault → r.property = ResizeProperty.propDecreaseOnly →
        r.computedFactor (sizeOf img) > 1 →
        (r.compute sizeOf resizeImage img log).1 = true
        ∧ (r.compute sizeOf resizeImage img log).2.1 = img) := by
  refine ⟨?_, ?_, ?_⟩
  · intro h1
    unfold DkResizeBatch.compute
    simp [h1]
  · intro hmode hprop hsf
    unfold DkResizeBatch.compute
    by_cases h1 : r.scaleFactor = 1
    · simp [h1]
    · have hA : ¬(r.computedFactor (sizeOf img) > 1
          ∧ r.property = ResizeProperty.propDecreaseOnly) := by
        rintro ⟨ha, _⟩
        linarith
      unfold DkResizeBatch.prepareProperties
      simp [h1, hmode, hA, hsf, hprop]
  · intro hmode hprop hsf
    unfold DkResizeBatch.compute
    by_cases h1 : r.scaleFactor = 1
    · simp [h1]
    · unfold DkResizeBatch.prepareProperties
      simp [h1, hmode, hsf, hprop]

/-- Witness for C6 at a concrete resize step: long-side mode, decrease-only
policy, computed factor 3 on a 1x1 image. -/
theorem resize_noop_policies_witness :
    ((DkResizeBatch.compute
        { scaleFactor := 3, mode := ResizeMode.modeLongSide,
          property := ResizeProperty.propDecreaseOnly }
        (fun _ => ⟨1, 1⟩) (fun i _ _ => i) (QImage.pix 2) []).1 = true
     ∧ (DkResizeBatch.compute
        { scaleFactor := 3, mode := ResizeMode.modeLongSide,
          property := ResizeProperty.propDecreaseOnly }
        (fun _ => ⟨1, 1⟩) (fun i _ _ => i) (QImage.pix 2) []).2.1 = QImage.pix 2) :=
  (resize_noop_policies
    { scaleFactor := 3, mode := ResizeMode.modeLongSide,
      property := ResizeProperty.propDecreaseOnly }
    (fun _ => ⟨1, 1⟩) (fun i _ _ => i) (QImage.pix 2) []).2.2
    (by decide) rfl
    (by norm_num [DkResizeBatch.computedFactor, DkResizeBatch.normalizedSize])

/-! The result polling of the runner (DkBatchProcessing::getCurrentResults).
Items are seen through their wasProcessed/hasFailed observers; mResList is
the cached classification list that persists across polling calls. -/

/-- Per-item classification (batch_item_not_computed / succeeded / failed). -/
inductive BatchItemResult
  | notComputed
  | succeeded
  | failed
deriving DecidableEq

/-- The two observers of one batch item that getCurrentResults reads. -/
structure ItemView where
  wasProcessed : Bool
  hasFailed : Bool

/-- The classification a processed item receives (hasFailed decides between
failed and succeeded); an unprocessed item stays not-computed. -/
def classifyItem (it : ItemView) : BatchItemResult :=
  if it.wasProcessed then
    (if it.hasFailed then BatchItemResult.failed else BatchItemResult.succeeded)
  else BatchItemResult.notComputed

/-- DkBatchProcessing::getCurrentResults: lazily initialize mResList to
not-computed, then classify only the entries that are still not-computed. -/
def DkBatchProcessing.getCurrentResults (items : List ItemView)
    (resList : List BatchItemResult) : List BatchItemResult :=
  let rl := if resList.isEmpty then List.replicate items.length BatchItemResult.notComputed
            else resList
  (List.range rl.length).map (fun idx =>
    let cur := rl.getD idx BatchItemResult.notComputed
    if cur ≠ BatchItemResult.notComputed then cur
    else classifyItem (items.getD idx (ItemView.mk false false)))

theorem getD_map_range {α : Type} (n : Nat) (f : Nat → α) (i : Nat) (d : α) :
    ((List.range n).map f).getD i d = if i < n then f i else d := by
  by_cases h : i < n
  · simp [List.getD, List.getElem?_map, List.getElem?_range h, h]
  · rw [List.getD_eq_default _ _ (by simpa using Nat.le_of_not_lt h), if_neg h]

/-- C7: getCurrentResults is stable: every entry is one of the three
classifications, an entry that was already succeeded or failed is returned
unchanged by any later call, and a not-computed entry changes only to the
classification derived from the wasProcessed/hasFailed state of the item. -/
theorem getCurrentResults_stable (items : List ItemView) (resList : List BatchItemResult)
    (hlen : resList = [] ∨ resList.length = items.length) :
    ∀ i : Nat,
      ((DkBatchProcessing.getCurrentResults items resList).getD i BatchItemResult.notComputed
          = BatchItemResult.notComputed
        ∨ (DkBatchProcessing.getCurrentResults items resList).getD i BatchItemResult.notComputed
          = BatchItemResult.succeeded
        ∨ (DkBatchProcessing.getCurrentResults items resList).getD i BatchItemResult.notComputed
          = BatchItemResult.failed)
      ∧ (resList.getD i BatchItemResult.notComputed ≠ BatchItemResult.notComputed →
          (DkBatchProcessing.getCurrentResults items resList).getD i BatchItemResult.notComputed
            = resList.getD i BatchItemResult.notComputed)
      ∧ (resList.getD i BatchItemResult.notComputed = BatchItemResult.notComputed →
          (DkBatchProcessing.getCurrentResults items resList).getD i BatchItemResult.notComputed
            = classifyItem (items.getD i (ItemView.mk false false))) := by
  intro i
  refine ⟨?_, ?_, ?_⟩
  · cases h : (DkBatchProcessing.getCurrentResults items resList).getD i
        BatchItemResult.notComputed
    · exact Or.inl rfl
    · exact Or.inr (Or.inl rfl)
    · exact Or.inr (Or.inr rfl)
  · intro hne
    have hne2 : resList.isEmpty = false := by
      cases hres : resList
      · rw [hres] at hne
        simp [List.getD] at hne
      · simp [hres]
    unfold DkBatchProcessing.getCurrentResults
    simp only [hne2, Bool.false_eq_true, ite_false, if_false]
    rw [getD_map_range]
    by_cases hi : i < resList.length
    · simp only [hi, ite_true]
      rw [if_pos hne]
    · exfalso
      apply hne
      exact List.getD_eq_default _ _ (Nat.le_of_not_lt hi)
  · intro hnc
    unfold DkBatchProcessing.getCurrentResults
    cases hres : resList.isEmpty
    · have hlen2 : resList.length = items.length := by
        rcases hlen with hnil | h
        · rw [hnil] at hres
          simp at hres
        · exact h
      simp only [hres, Bool.false_eq_true, ite_false, if_false]
      rw [getD_map_range]
      by_cases hi : i < resList.length
      · simp only [hi, ite_true]
        rw [if_neg (by rw [hnc]; simp)]
      · simp only [hi, ite_false]
        rw [List.getD_eq_default _ _ (by omega)]
        simp [classifyItem]
    · have hnil : resList = [] := List.isEmpty_iff.mp hres
      simp only [hres, ite_true, if_true]
      rw [List.length_replicate, getD_map_range]
      by_cases hi : i < items.length
      · simp only [hi, ite_true]
        have hrep : (List.replicate items.length BatchItemResult.notComputed).getD i
            BatchItemResult.notComputed = BatchItemResult.notComputed := by
          simp [List.getD, List.getElem?_replicate, hi]
        rw [if_neg (by rw [hrep]; simp)]
      · simp only [hi, ite_false]
        rw [List.getD_eq_default _ _ (by omega)]
        simp [classifyItem]

/-- Witness for C7: a terminal failed entry survives a later call unchanged,
and a not-computed entry of a processed, non-failed item becomes
succeeded. -/
theorem getCurrentResults_stable_witness :
    (DkBatchProcessing.getCurrentResults
        [ItemView.mk true false, ItemView.mk true true]
        [BatchItemResult.failed, BatchItemResult.notComputed]).getD 0
        BatchItemResult.notComputed
      = [BatchItemResult.failed, BatchItemResult.notComputed].getD 0 BatchItemResult.notComputed
    ∧ (DkBatchProcessing.getCurrentResults
        [ItemView.mk true false, ItemView.mk true true]
        [BatchItemResult.failed, BatchItemResult.notComputed]).getD 1
        BatchItemResult.notComputed
      = classifyItem ([ItemView.mk true false, ItemView.mk true true].getD 1
          (ItemView.mk false false)) :=
  ⟨(getCurrentResults_stable [ItemView.mk true false, ItemView.mk true true]
      [BatchItemResult.failed, BatchItemResult.notComputed] (Or.inr (by decide)) 0).2.1
      (by decide),
   (getCurrentResults_stable [ItemView.mk true false, ItemView.mk true true]
      [BatchItemResult.failed, BatchItemResult.notComputed] (Or.inr (by decide)) 1).2.2
      (by decide)⟩
